import Mathlib

/-!
Shallow embedding of the picokit firmware core (src/protocol.c, src/icsp.c,
src/main.c).  Machine integers are modelled as `Nat` with explicit `% 256`
(`uint8_t`) and `% 65536` (`uint16_t`) truncation at the points where the C
code converts; byte streams are `List Nat`; hardware effects are recorded as
explicit event traces.
-/

namespace Picokit

/-! ### Host protocol (src/protocol.c) -/

/-- One round of the inner `for (j = 0; j < 8; j++)` loop of `proto_crc8`:
`crc` is a `uint8_t`, so the left shift is truncated mod 256. -/
def crc8_round (c : Nat) : Nat :=
  if c &&& 0x80 ≠ 0 then ((c <<< 1) ^^^ 0x07) % 256 else (c <<< 1) % 256

/-- The function `crc8_round` iterated `j` times. -/
def crc8_rounds : Nat → Nat → Nat
  | 0, c => c
  | j + 1, c => crc8_rounds j (crc8_round c)

/-- Model of `proto_crc8` from src/protocol.c: CRC starts at 0x00; each byte is
xor-ed into the register (`crc ^= data[i]`, both operands `uint8_t`) and
then 8 shift rounds are applied. -/
def proto_crc8 (data : List Nat) : Nat :=
  data.foldl (fun crc b => crc8_rounds 8 (crc ^^^ b % 256)) 0x00

/-- Model of `proto_send_response` from src/protocol.c: builds
`[status][len lo][len hi][payload][crc8(header ++ payload)]` in one buffer
(`len` is the payload length passed by every caller in main.c). -/
def proto_send_response (status : Nat) (payload : List Nat) : List Nat :=
  let len := payload.length
  let hdr := [status, len % 256, (len >>> 8) % 256]
  hdr ++ payload ++ [proto_crc8 (hdr ++ payload)]

/-- The length reconstruction of `proto_read_request`:
`req->len = (uint16_t)lo | ((uint16_t)hi << 8)` — the operands are
promoted `int`s from `getchar` truncated to `uint16_t`, and the result is
stored in the `uint16_t` field `len`. -/
def frame_len (lo hi : Nat) : Nat :=
  ((lo % 65536) ||| ((hi % 65536) <<< 8)) % 65536

/-- Outcome of `proto_read_request`: `ok` returns the parsed request and the
unread tail of the stream, `fail` returns `false` having emitted `emitted`
response bytes and leaving `rest` unread, `blocked` means the routine never
returns on the given finite stream (a blocking `getchar` with no input left,
or the non-terminating drain loop). -/
inductive ProtoResult where
  | ok (cmd len : Nat) (payload : List Nat) (rest : List Nat)
  | fail (emitted : List Nat) (rest : List Nat)
  | blocked
  deriving DecidableEq, Repr

/-- Model of `proto_read_request` from src/protocol.c over a finite input stream.
`req->len = (uint16_t)lo | ((uint16_t)hi << 8)` is truncated mod 2^16; each
stored byte is `(uint8_t)c`, i.e. `% 256`.  In the oversized branch the C
drain loop is `for (uint16_t i = 0; i < req->len + 1; i++)`: the bound
`req->len + 1` is computed after promotion to `int`, so when `len = 65535`
the `uint16_t` counter `i` is always `< 65536` and the loop never exits —
on a finite stream the routine eventually blocks in `getchar`. -/
def proto_read_request (input : List Nat) : ProtoResult :=
  match input with
  | [] => .blocked
  | c :: r1 =>
    match r1 with
    | [] => .blocked
    | lo :: r2 =>
      match r2 with
      | [] => .blocked
      | hi :: r3 =>
        let len := frame_len lo hi
        if 256 < len then
          if len = 65535 then .blocked
          else if len + 1 ≤ r3.length then .fail [] (r3.drop (len + 1))
          else .blocked
        else
          if len ≤ r3.length then
            let payload := (r3.take len).map (· % 256)
            match r3.drop len with
            | [] => .blocked
            | crc :: rest =>
              let frame := (c % 256) :: (len % 256) :: ((len >>> 8) % 256) :: payload
              if crc % 256 = proto_crc8 frame then .ok (c % 256) len payload rest
              else .fail (proto_send_response 0x02 []) rest
          else .blocked

/-! ### ICSP engine (src/icsp.c)

Hardware effects are recorded as an event trace.  `spiRead` marks one
3-byte read transaction of `icsp_cmd_read_data` (the surrounding data-line
direction switches belong to that same transaction). -/

/-- One observable hardware action of the physical link. -/
inductive Ev where
  | mclr (level : Bool)
  | sleepMs (n : Nat)
  | sleepUs (n : Nat)
  | spiWrite (bytes : List Nat)
  | spiRead
  deriving DecidableEq, Repr

/-- The `lvp_active` session flag (src/icsp.c, `static bool lvp_active`). -/
abbrev LvpState := Bool

/-- Model of `icsp_enter_lvp`: no-op when already active; otherwise drive MCLR low,
wait 50 ms, clock out the 4-byte key "MCHP" (0x4D 0x43 0x48 0x50), wait
5 ms, set the flag. -/
def icsp_enter_lvp (lvp : LvpState) : List Ev × LvpState :=
  if lvp then ([], lvp)
  else ([.mclr false, .sleepMs 50, .spiWrite [0x4D, 0x43, 0x48, 0x50], .sleepMs 5], true)

/-- Model of `icsp_exit_lvp`: no-op when already inactive; otherwise drive MCLR
high, wait 5 ms, clear the flag. -/
def icsp_exit_lvp (lvp : LvpState) : List Ev × LvpState :=
  if !lvp then ([], lvp)
  else ([.mclr true, .sleepMs 5], false)

/-- Model of `icsp_send_command(cmd, payload)`: with a non-negative payload, emit
`cmd` plus the 24-bit packing `((p>>15)&0xFF, (p>>7)&0xFF, (p<<1)&0xFF)`
in one 4-byte SPI write; with a negative payload, emit only `cmd`. -/
def icsp_send_command (cmd : Nat) (payload : Int) : List Ev :=
  if 0 ≤ payload then
    [.spiWrite [cmd, (payload.toNat >>> 15) % 256, (payload.toNat >>> 7) % 256,
                (payload.toNat <<< 1) % 256]]
  else [.spiWrite [cmd]]

/-- Opcodes from src/icsp.h. -/
def ICSP_COMMAND_LOAD_PC : Nat := 0x80
def ICSP_COMMAND_BULK_ERASE : Nat := 0x18
def ICSP_COMMAND_PAGE_ERASE : Nat := 0xF0
def ICSP_COMMAND_READ_DATA : Nat := 0xFC
def ICSP_COMMAND_READ_DATA_INCPC : Nat := 0xFE
def ICSP_COMMAND_LOAD_DATA : Nat := 0x00
def ICSP_COMMAND_LOAD_DATA_INCPC : Nat := 0x02
def ICSP_COMMAND_BEGIN_PROG_INT : Nat := 0xE0

/-- Region bits from src/icsp.h. -/
def ICSP_ERASE_REGION_EEPROM : Nat := 1
def ICSP_ERASE_REGION_FLASH : Nat := 2
def ICSP_ERASE_REGION_USER_ID : Nat := 4
def ICSP_ERASE_REGION_CONFIG : Nat := 8

/-- Model of `icsp_cmd_loadpc(pc)`. -/
def icsp_cmd_loadpc (pc : Nat) : List Ev :=
  icsp_send_command ICSP_COMMAND_LOAD_PC pc

/-- Model of `icsp_cmd_erase(regions)`: one `if (regions & BIT)` block per region,
in source order CONFIG, FLASH, EEPROM, USER_ID; each block loads the
region base into the PC, sends the payload-less bulk-erase opcode and
sleeps 26 ms. -/
def icsp_cmd_erase (regions : Nat) : List Ev :=
  (if regions &&& ICSP_ERASE_REGION_CONFIG ≠ 0 then
    icsp_cmd_loadpc 0x300000 ++ icsp_send_command ICSP_COMMAND_BULK_ERASE (-1)
      ++ [.sleepMs 26]
  else []) ++
  (if regions &&& ICSP_ERASE_REGION_FLASH ≠ 0 then
    icsp_cmd_loadpc 0x000000 ++ icsp_send_command ICSP_COMMAND_BULK_ERASE (-1)
      ++ [.sleepMs 26]
  else []) ++
  (if regions &&& ICSP_ERASE_REGION_EEPROM ≠ 0 then
    icsp_cmd_loadpc 0x310000 ++ icsp_send_command ICSP_COMMAND_BULK_ERASE (-1)
      ++ [.sleepMs 26]
  else []) ++
  (if regions &&& ICSP_ERASE_REGION_USER_ID ≠ 0 then
    icsp_cmd_loadpc 0x200000 ++ icsp_send_command ICSP_COMMAND_BULK_ERASE (-1)
      ++ [.sleepMs 26]
  else [])

/-- Model of `icsp_cmd_erase_page()`. -/
def icsp_cmd_erase_page : List Ev :=
  icsp_send_command ICSP_COMMAND_PAGE_ERASE (-1) ++ [.sleepMs 11]

/-- The 16-bit reconstruction performed by `icsp_cmd_read_data` from three
SPI bytes: `(data[0] << 15) | (data[1] << 7) | (data[2] >> 1)` assigned to
a `uint16_t`; the three inputs are `uint8_t`. -/
def icsp_read_word (b0 b1 b2 : Nat) : Nat :=
  (((b0 % 256) <<< 15) ||| ((b1 % 256) <<< 7) ||| ((b2 % 256) >>> 1)) % 65536

/-- The environment of a handler: the byte stream produced by successive
`spi_read_blocking` calls (the target's answers).  `readEnvWord env k` is
the word reconstructed by the `k`-th read transaction of the handler. -/
def readEnvWord (env : Nat → Nat) (k : Nat) : Nat :=
  icsp_read_word (env (3 * k)) (env (3 * k + 1)) (env (3 * k + 2))

/-- Trace of `icsp_cmd_read_data(increment_pc)`: the opcode byte, then one
3-byte read transaction (main.c configures a data-in pin, so the
`dataInPin == -1` early-out is never taken). -/
def icsp_cmd_read_data_trace (inc : Bool) : List Ev :=
  [.spiWrite [if inc then ICSP_COMMAND_READ_DATA_INCPC else ICSP_COMMAND_READ_DATA],
   .spiRead]

/-- Model of `icsp_cmd_write_data(value, increment_pc)`. -/
def icsp_cmd_write_data (value : Nat) (inc : Bool) : List Ev :=
  icsp_send_command
      (if inc then ICSP_COMMAND_LOAD_DATA_INCPC else ICSP_COMMAND_LOAD_DATA) value
    ++ icsp_send_command ICSP_COMMAND_BEGIN_PROG_INT (-1) ++ [.sleepUs 75]

/-- Model of `icsp_read_data_8bit(addr, data, size)`: one `load_pc`, then `size`
incrementing reads, keeping the low byte of each word.  Returns the trace
and the bytes stored into `data`. -/
def icsp_read_data_8bit (env : Nat → Nat) (addr : Nat) (size : Nat) :
    List Ev × List Nat :=
  (icsp_cmd_loadpc addr ++ (List.range size).flatMap (fun _ => icsp_cmd_read_data_trace true),
   (List.range size).map (fun k => readEnvWord env k % 256))

/-- Model of `icsp_program_page(addr, data, size, erase)`: one `load_pc`, optional
page erase, `size - 1` increment-PC load-data commands, one plain
load-data with the last word, one begin-programming opcode, 3 ms wait.
(The callers always pass `size = data.length > 0`; the C loop bound
`size - 1` and the access `data[size - 1]` are modelled by `dropLast` and
`getD (length - 1)`.) -/
def icsp_program_page (addr : Nat) (data : List Nat) (erase : Bool) : List Ev :=
  icsp_cmd_loadpc addr
    ++ (if erase then icsp_cmd_erase_page else [])
    ++ data.dropLast.flatMap (fun w => icsp_send_command ICSP_COMMAND_LOAD_DATA_INCPC w)
    ++ icsp_send_command ICSP_COMMAND_LOAD_DATA (data.getD (data.length - 1) 0)
    ++ icsp_send_command ICSP_COMMAND_BEGIN_PROG_INT (-1)
    ++ [.sleepMs 3]

/-- Model of `icsp_program_page_8bit(addr, data, size, erase)`: one `load_pc`,
optional page erase, then per byte a `write_data(byte, increment=true)`
followed by an 11 ms wait. -/
def icsp_program_page_8bit (addr : Nat) (data : List Nat) (erase : Bool) : List Ev :=
  icsp_cmd_loadpc addr
    ++ (if erase then icsp_cmd_erase_page else [])
    ++ data.flatMap (fun b => icsp_cmd_write_data b true ++ [.sleepMs 11])

/-- Model of `icsp_program_config(addr, data, byte_count)`: the C loop
`for (i = 0; i + 1 < byte_count; i += 2)` pairs consecutive bytes
little-endian; the trailing odd byte (`byte_count & 1`) is padded with
0xFF in the high byte.  Each word write is `load_pc(addr + i)`, a plain
load-data, a begin-programming opcode and an 11 ms wait. -/
def icsp_program_config (addr : Nat) : List Nat → List Ev
  | a :: b :: rest =>
    icsp_cmd_loadpc addr
      ++ icsp_send_command ICSP_COMMAND_LOAD_DATA ((a ||| (b <<< 8) : Nat))
      ++ icsp_send_command ICSP_COMMAND_BEGIN_PROG_INT (-1)
      ++ [.sleepMs 11]
      ++ icsp_program_config (addr + 2) rest
  | [a] =>
    icsp_cmd_loadpc addr
      ++ icsp_send_command ICSP_COMMAND_LOAD_DATA ((a ||| 0xFF00 : Nat))
      ++ icsp_send_command ICSP_COMMAND_BEGIN_PROG_INT (-1)
      ++ [.sleepMs 11]
  | [] => []

/-- Model of `proto_get_u32` from src/protocol.h (little-endian; the four source
bytes are `uint8_t` array cells). -/
def proto_get_u32 (p : List Nat) : Nat :=
  p.getD 0 0 ||| (p.getD 1 0 <<< 8) ||| (p.getD 2 0 <<< 16) ||| (p.getD 3 0 <<< 24)

/-- Model of `proto_get_u16` from src/protocol.h (little-endian). -/
def proto_get_u16 (p : List Nat) : Nat :=
  p.getD 0 0 ||| (p.getD 1 0 <<< 8)

/-! ### Command handlers (src/main.c)

Each handler takes the request payload (`req->payload`, length `req->len`)
and the current LVP flag and returns the hardware trace, the response
frame emitted through `proto_send_response`, and the new LVP flag. -/

/-- Model of `handle_write_page` (dispatched for `CMD_WRITE_PAGE = 0x03`): payload
is `addr(4 LE) + 128 data bytes`; undersized payloads get
`STATUS_ERR_PAYLOAD (0x05)`; otherwise the 128 bytes are paired
little-endian into 64 words and programmed with `erase = true`; the LVP
session is deliberately left active. -/
def handle_write_page (req : List Nat) (lvp : LvpState) :
    List Ev × List Nat × LvpState :=
  if req.length < 4 + 128 then ([], proto_send_response 0x05 [], lvp)
  else
    let addr := proto_get_u32 req
    let data := (req.drop 4).take 128
    let words := (List.range 64).map (fun i => data.getD (2 * i) 0 ||| (data.getD (2 * i + 1) 0 <<< 8))
    let e := icsp_enter_lvp lvp
    (e.1 ++ icsp_program_page addr words true, proto_send_response 0x00 [], e.2)

/-- Model of `handle_write_config` (dispatched for `CMD_WRITE_CONFIG = 0x04`):
payload is `addr(4 LE) + len(2 LE) + data(len)`; undersized payloads get
`STATUS_ERR_PAYLOAD`; otherwise `icsp_program_config` runs and the LVP
session is left active. -/
def handle_write_config (req : List Nat) (lvp : LvpState) :
    List Ev × List Nat × LvpState :=
  if req.length < 6 then ([], proto_send_response 0x05 [], lvp)
  else
    let addr := proto_get_u32 req
    let data_len := proto_get_u16 (req.drop 4)
    if req.length < 6 + data_len then ([], proto_send_response 0x05 [], lvp)
    else
      let e := icsp_enter_lvp lvp
      (e.1 ++ icsp_program_config addr ((req.drop 6).take data_len),
       proto_send_response 0x00 [], e.2)

/-- Model of `handle_write_eeprom` (dispatched for `CMD_WRITE_EEPROM = 0x05`): like
`handle_write_config` but programs byte-wide with `erase = false`. -/
def handle_write_eeprom (req : List Nat) (lvp : LvpState) :
    List Ev × List Nat × LvpState :=
  if req.length < 6 then ([], proto_send_response 0x05 [], lvp)
  else
    let addr := proto_get_u32 req
    let data_len := proto_get_u16 (req.drop 4)
    if req.length < 6 + data_len then ([], proto_send_response 0x05 [], lvp)
    else
      let e := icsp_enter_lvp lvp
      (e.1 ++ icsp_program_page_8bit addr ((req.drop 6).take data_len) false,
       proto_send_response 0x00 [], e.2)

/-- The byte buffer filled by the word-wide branch of `handle_read`: the C
loop writes `buf[2i] = w & 0xFF` and, when `2i+1 < read_len`,
`buf[2i+1] = (w >> 8) & 0xFF`, for `i < (read_len + 1) / 2`; the cells are
written in increasing order, so the first `read_len` cells of `buf` are
exactly this list. -/
def read_words_buf (env : Nat → Nat) (read_len : Nat) : List Nat :=
  (List.range ((read_len + 1) / 2)).flatMap (fun i =>
    readEnvWord env i % 256 ::
      (if 2 * i + 1 < read_len then [(readEnvWord env i >>> 8) % 256] else []))

/-- Model of `handle_read` (dispatched for `CMD_READ = 0x06`): payload is
`addr(4 LE) + len(2 LE)`; undersized payloads and `read_len > 256` get
`STATUS_ERR_PAYLOAD`; addresses at or above the EEPROM base 0x310000 are
read byte-wide via `icsp_read_data_8bit`, lower addresses word-wide with
little-endian unpacking; the LVP session is left active. -/
def handle_read (env : Nat → Nat) (req : List Nat) (lvp : LvpState) :
    List Ev × List Nat × LvpState :=
  if req.length < 6 then ([], proto_send_response 0x05 [], lvp)
  else
    let addr := proto_get_u32 req
    let read_len := proto_get_u16 (req.drop 4)
    if 256 < read_len then ([], proto_send_response 0x05 [], lvp)
    else
      let e := icsp_enter_lvp lvp
      if 0x310000 ≤ addr then
        let r := icsp_read_data_8bit env addr read_len
        (e.1 ++ r.1, proto_send_response 0x00 r.2, e.2)
      else
        (e.1 ++ icsp_cmd_loadpc addr
           ++ (List.range ((read_len + 1) / 2)).flatMap
                (fun _ => icsp_cmd_read_data_trace true),
         proto_send_response 0x00 (read_words_buf env read_len), e.2)

/-! ### Spec-side descriptions used by refinement claims -/

/-- The erase order tabulated by the spec: CONFIG, FLASH, EEPROM, USER_ID
with their base addresses. -/
def erase_region_order : List (Nat × Nat) :=
  [(ICSP_ERASE_REGION_CONFIG, 0x300000), (ICSP_ERASE_REGION_FLASH, 0x000000),
   (ICSP_ERASE_REGION_EEPROM, 0x310000), (ICSP_ERASE_REGION_USER_ID, 0x200000)]

/-- The claim's description of `erase(region_mask)`: for each selected
region, in the fixed order above, a load-PC of the region base, the
payload-less bulk-erase opcode, and the erase-cycle wait. -/
def erase_claim_trace (regions : Nat) : List Ev :=
  (erase_region_order.filter (fun p => decide (regions &&& p.1 ≠ 0))).flatMap
    (fun p => icsp_cmd_loadpc p.2 ++ [.spiWrite [ICSP_COMMAND_BULK_ERASE], .sleepMs 26])

/-- The value of the `k`-th word programmed by `icsp_program_config` on a
byte block, per the claim: consecutive bytes paired little-endian, a
trailing odd byte padded with 0xFF in the high byte. -/
def config_word (data : List Nat) (k : Nat) : Nat :=
  if 2 * k + 1 < data.length then data.getD (2 * k) 0 ||| (data.getD (2 * k + 1) 0 <<< 8)
  else data.getD (2 * k) 0 ||| 0xFF00

/-- One explicit word write as the claim describes it: a load-PC, a plain
load-data, a begin-programming opcode, and the 11 ms wait. -/
def config_word_write (addr w : Nat) : List Ev :=
  icsp_cmd_loadpc addr ++ icsp_send_command ICSP_COMMAND_LOAD_DATA (w : Int)
    ++ icsp_send_command ICSP_COMMAND_BEGIN_PROG_INT (-1) ++ [Ev.sleepMs 11]

/-- Reference CRC-8 step per the claim: polynomial 0x07, MSB-first, no
reflection — feed one message bit into the 8-bit shift register. -/
def crc8_feed_bit (c bit : Nat) : Nat :=
  if (c >>> 7) % 2 ≠ bit % 2 then ((c <<< 1) % 256) ^^^ 0x07 else (c <<< 1) % 256

/-- Feed a list of bits. -/
def crc8_feed_list (c : Nat) : List Nat → Nat
  | [] => c
  | bit :: rest => crc8_feed_list (crc8_feed_bit c bit) rest

/-- Feed one byte MSB-first. -/
def crc8_feed_byte (c b : Nat) : Nat :=
  crc8_feed_list c ((List.range 8).map (fun j => (b >>> (7 - j)) % 2))

/-- The claim's reference CRC-8: polynomial 0x07, initial value 0x00,
MSB-first, no reflection, over exactly the bytes given. -/
def crc8_msb_spec (data : List Nat) : Nat :=
  data.foldl (fun c b => crc8_feed_byte c (b % 256)) 0x00

/-- The top bits of the shadow register: the MSB of `s`, then the MSB of
`(s <<< 1) % 256`, and so on. -/
def crc8_top_bits : Nat → Nat → List Nat
  | 0, _ => []
  | j + 1, s => (s >>> 7) % 2 :: crc8_top_bits j ((s <<< 1) % 256)

/-! ### Helper lemmas -/

theorem enter_lvp_snd (lvp : LvpState) : (icsp_enter_lvp lvp).2 = true := by
  cases lvp <;> rfl

theorem crc8_round_lt (c : Nat) : crc8_round c < 256 := by
  unfold crc8_round
  split <;> exact Nat.mod_lt _ (by norm_num)

theorem crc8_rounds_lt (j : Nat) : ∀ c, c < 256 → crc8_rounds j c < 256 := by
  induction j with
  | zero => exact fun c hc => hc
  | succ j ih => exact fun c _ => ih _ (crc8_round_lt c)

theorem proto_crc8_lt (l : List Nat) : proto_crc8 l < 256 := by
  suffices h : ∀ c, c < 256 →
      l.foldl (fun crc b => crc8_rounds 8 (crc ^^^ b % 256)) c < 256 by
    exact h 0 (by norm_num)
  induction l with
  | nil => exact fun c hc => hc
  | cons b t ih =>
    intro c hc
    exact ih _ (crc8_rounds_lt 8 _
      (Nat.xor_lt_two_pow (n := 8) hc (Nat.mod_lt _ (by norm_num))))

theorem frame_len_encode (len : Nat) (h : len ≤ 256) :
    frame_len (len % 256) ((len >>> 8) % 256) = len := by
  rcases Nat.lt_or_ge len 256 with hlt | hge
  · have h1 : len % 256 = len := Nat.mod_eq_of_lt hlt
    have h2 : len >>> 8 = 0 := by
      rw [Nat.shiftRight_eq_div_pow]
      exact Nat.div_eq_of_lt (by norm_num at hlt ⊢; omega)
    simp [frame_len, h1, h2, Nat.mod_eq_of_lt (show len < 65536 by omega)]
  · have h256 : len = 256 := le_antisymm h hge
    subst h256; rfl

/-- Parsing an encoded frame from the head of the stream succeeds and
consumes exactly the frame. Shared by the round-trip and end-to-end
claims. -/
theorem parse_encode (status : Nat) (payload rest : List Nat)
    (hs : status < 256) (hlen : payload.length ≤ 256)
    (hb : ∀ b ∈ payload, b < 256) :
    proto_read_request (proto_send_response status payload ++ rest) =
      ProtoResult.ok status payload.length payload rest := by
  simp only [proto_send_response, List.cons_append, List.nil_append, List.append_assoc,
    List.singleton_append]
  simp only [proto_read_request]
  rw [frame_len_encode payload.length hlen]
  rw [if_neg (by omega)]
  rw [if_pos (by simp)]
  rw [List.take_left, List.drop_left]
  have hmap : payload.map (fun b => b % 256) = payload := by
    rw [List.map_congr_left (g := fun b => b) (fun b hbm => Nat.mod_eq_of_lt (hb b hbm))]
    exact List.map_id' payload
  rw [hmap]
  rw [Nat.mod_eq_of_lt hs]
  have hc := Nat.mod_eq_of_lt (proto_crc8_lt
    (status :: payload.length % 256 :: payload.length >>> 8 % 256 :: payload))
  simp [hc]

/-! ### Claim theorems -/

/-- C1: for every region bitmask, `icsp_cmd_erase` issues bulk-erase
opcodes for exactly the selected regions in the fixed order CONFIG, FLASH,
EEPROM, USER_ID, each preceded by a load-PC of the region base address
(0x300000, 0x000000, 0x310000, 0x200000) and followed by a 26 ms wait; in
particular, with CONFIG and FLASH both selected, the CONFIG base address
is loaded strictly before the FLASH base address. -/
theorem erase_selected_regions_in_fixed_order (regions : Nat) :
    icsp_cmd_erase regions = erase_claim_trace regions ∧
    (regions &&& ICSP_ERASE_REGION_CONFIG ≠ 0 → regions &&& ICSP_ERASE_REGION_FLASH ≠ 0 →
      (icsp_cmd_erase regions).indexOf (Ev.spiWrite [0x80, 0x60, 0x00, 0x00]) <
        (icsp_cmd_erase regions).indexOf (Ev.spiWrite [0x80, 0x00, 0x00, 0x00])) := by
  unfold icsp_cmd_erase erase_claim_trace erase_region_order
  by_cases h8 : regions &&& ICSP_ERASE_REGION_CONFIG = 0 <;>
    by_cases h2 : regions &&& ICSP_ERASE_REGION_FLASH = 0 <;>
      by_cases h1 : regions &&& ICSP_ERASE_REGION_EEPROM = 0 <;>
        by_cases h4 : regions &&& ICSP_ERASE_REGION_USER_ID = 0 <;>
          refine ⟨by simp [h8, h2, h1, h4, icsp_cmd_loadpc, icsp_send_command], ?_⟩ <;>
            simp [h8, h2, h1, h4, icsp_cmd_loadpc, icsp_send_command] <;> decide

/-- Witness for C1 at the concrete mask CONFIG|FLASH = 10. -/
theorem erase_selected_regions_in_fixed_order_witness :
    icsp_cmd_erase 10 = erase_claim_trace 10 ∧
      (icsp_cmd_erase 10).indexOf (Ev.spiWrite [0x80, 0x60, 0x00, 0x00]) <
        (icsp_cmd_erase 10).indexOf (Ev.spiWrite [0x80, 0x00, 0x00, 0x00]) :=
  ⟨(erase_selected_regions_in_fixed_order 10).1,
   (erase_selected_regions_in_fixed_order 10).2 (by decide) (by decide)⟩

/-- C9: `icsp_enter_lvp` and `icsp_exit_lvp` are idempotent on the session
flag: entering while active and exiting while inactive perform no hardware
action and keep the flag; entering while inactive activates, exiting while
active deactivates. -/
theorem lvp_enter_exit_idempotent :
    icsp_enter_lvp true = ([], true) ∧ icsp_exit_lvp false = ([], false) ∧
      (icsp_enter_lvp false).2 = true ∧ (icsp_exit_lvp true).2 = false :=
  ⟨rfl, rfl, rfl, rfl⟩

/-- C10: after a successful WRITE_CONFIG, WRITE_EEPROM or READ command the
LVP session flag is active (each handler enters LVP and never exits it
before sending its response), whatever the flag was before. -/
theorem session_active_after_config_eeprom_read :
    (∀ req lvp, 6 + proto_get_u16 (req.drop 4) ≤ req.length →
      (handle_write_config req lvp).2.2 = true) ∧
    (∀ req lvp, 6 + proto_get_u16 (req.drop 4) ≤ req.length →
      (handle_write_eeprom req lvp).2.2 = true) ∧
    (∀ env req lvp, 6 ≤ req.length → proto_get_u16 (req.drop 4) ≤ 256 →
      (handle_read env req lvp).2.2 = true) := by
  refine ⟨fun req lvp h => ?_, fun req lvp h => ?_, fun env req lvp h6 hrl => ?_⟩
  · simp only [handle_write_config]
    rw [if_neg (by omega), if_neg (by omega)]
    exact enter_lvp_snd lvp
  · simp only [handle_write_eeprom]
    rw [if_neg (by omega), if_neg (by omega)]
    exact enter_lvp_snd lvp
  · simp only [handle_read]
    rw [if_neg (by omega), if_neg (by omega)]
    by_cases ha : 0x310000 ≤ proto_get_u32 req
    · rw [if_pos ha]; exact enter_lvp_snd lvp
    · rw [if_neg ha]; exact enter_lvp_snd lvp

/-- Witness for C10 at concrete minimal requests. -/
theorem session_active_after_config_eeprom_read_witness :
    (handle_write_config [0, 0, 0, 0, 0, 0] false).2.2 = true ∧
    (handle_write_eeprom [0, 0, 0, 0, 0, 0] false).2.2 = true ∧
    (handle_read (fun _ => 0) [0, 0, 0, 0, 0, 0] false).2.2 = true :=
  ⟨session_active_after_config_eeprom_read.1 [0, 0, 0, 0, 0, 0] false (by decide),
   session_active_after_config_eeprom_read.2.1 [0, 0, 0, 0, 0, 0] false (by decide),
   session_active_after_config_eeprom_read.2.2 (fun _ => 0) [0, 0, 0, 0, 0, 0] false
     (by decide) (by decide)⟩

set_option maxRecDepth 40000 in
/-- C4: the concrete WRITE_PAGE request (cmd 0x03, len 132, address 0,
128 data bytes of 0xAA, valid CRC) parses successfully, and the handler
issues exactly: LVP entry, one load-PC(0), one page-erase opcode with its
11 ms wait, 63 increment-PC load-data commands carrying 0xAAAA, one plain
load-data carrying 0xAAAA, one begin-programming opcode and the 3 ms
wait, and responds with a status 0x00, length 0 frame, leaving LVP
active. -/
theorem write_page_end_to_end :
    proto_read_request (0x03 :: 132 :: 0 ::
        (([0, 0, 0, 0] ++ List.replicate 128 0xAA) ++
          [proto_crc8 (0x03 :: 132 :: 0 :: ([0, 0, 0, 0] ++ List.replicate 128 0xAA))])) =
      ProtoResult.ok 0x03 132 ([0, 0, 0, 0] ++ List.replicate 128 0xAA) [] ∧
    handle_write_page ([0, 0, 0, 0] ++ List.replicate 128 0xAA) false =
      ([Ev.mclr false, Ev.sleepMs 50, Ev.spiWrite [0x4D, 0x43, 0x48, 0x50], Ev.sleepMs 5,
        Ev.spiWrite [0x80, 0x00, 0x00, 0x00], Ev.spiWrite [0xF0], Ev.sleepMs 11] ++
        List.replicate 63 (Ev.spiWrite [0x02, 0x01, 0x55, 0x54]) ++
        [Ev.spiWrite [0x00, 0x01, 0x55, 0x54], Ev.spiWrite [0xE0], Ev.sleepMs 3],
       [0x00, 0x00, 0x00, 0x00], true) := by
  constructor
  · have h : (0x03 : Nat) :: 132 :: 0 ::
        (([0, 0, 0, 0] ++ List.replicate 128 0xAA) ++
          [proto_crc8 (0x03 :: 132 :: 0 :: ([0, 0, 0, 0] ++ List.replicate 128 0xAA))]) =
        proto_send_response 0x03 ([0, 0, 0, 0] ++ List.replicate 128 0xAA) ++ [] := by
      simp [proto_send_response]
    rw [h]
    have hp := parse_encode 0x03 ([0, 0, 0, 0] ++ List.replicate 128 0xAA) []
      (by norm_num) (by simp)
      (by intro b hbm; simp [List.mem_replicate] at hbm; omega)
    simpa using hp
  · decide

/-- C3: encoding a response frame and decoding it with the frame parser
reproduces status, payload and length exactly (consuming exactly the
frame), and the trailing byte of the encoded frame is the CRC-8 of the
3-byte header plus payload. -/
theorem response_frame_round_trip (status : Nat) (payload rest : List Nat)
    (hs : status < 256) (hlen : payload.length ≤ 256)
    (hb : ∀ b ∈ payload, b < 256) :
    proto_read_request (proto_send_response status payload ++ rest) =
      ProtoResult.ok status payload.length payload rest ∧
    (proto_send_response status payload).drop (3 + payload.length) =
      [proto_crc8 ((proto_send_response status payload).take (3 + payload.length))] := by
  refine ⟨parse_encode status payload rest hs hlen hb, ?_⟩
  have he : proto_send_response status payload =
      ([status, payload.length % 256, (payload.length >>> 8) % 256] ++ payload) ++
        [proto_crc8 ([status, payload.length % 256, (payload.length >>> 8) % 256] ++ payload)] := by
    simp [proto_send_response]
  have hl : ([status, payload.length % 256, (payload.length >>> 8) % 256] ++ payload).length =
      3 + payload.length := by simp; omega
  rw [he, List.drop_left' hl, List.take_left' hl]

/-- Witness for C3 at a concrete frame. -/
theorem response_frame_round_trip_witness :
    proto_read_request (proto_send_response 0x00 [0xBB, 0xCC] ++ [7, 7]) =
      ProtoResult.ok 0x00 2 [0xBB, 0xCC] [7, 7] ∧
    (proto_send_response 0x00 [0xBB, 0xCC]).drop (3 + 2) =
      [proto_crc8 ((proto_send_response 0x00 [0xBB, 0xCC]).take (3 + 2))] := by
  have h := response_frame_round_trip 0x00 [0xBB, 0xCC] [7, 7]
    (by norm_num) (by decide) (by decide)
  simpa using h

/-- C6 (counterexample to the claim as stated): with a declared length of
65535 (> 256) and 65536 = len + 1 junk bytes available, the parser never
returns — the `uint16_t` drain counter `i` satisfies `i < 65536` forever —
so it does not "drain exactly len+1 bytes and report failure". -/
theorem oversized_len_65535_never_returns :
    proto_read_request (0x02 :: 0xFF :: 0xFF :: List.replicate 65536 0) =
      ProtoResult.blocked ∧
    ∀ rest : List Nat, ProtoResult.blocked ≠ ProtoResult.fail [] rest :=
  ⟨rfl, fun _ h => ProtoResult.noConfusion h⟩

/-- C6 (amended): when the declared length `len` exceeds 256 but is not
65535, and at least `len + 1` further bytes are available, the parser
drains exactly `len + 1` bytes, reports failure without emitting any
response bytes, and leaves the remainder of the stream — so the next
frame's parse is not corrupted.  (At `len = 65535` the drain loop never
terminates; see the counterexample.) -/
theorem oversized_request_drained (c lo hi : Nat) (junk rest : List Nat)
    (hgt : 256 < frame_len lo hi) (hne : frame_len lo hi ≠ 65535)
    (hj : junk.length = frame_len lo hi + 1) :
    proto_read_request (c :: lo :: hi :: (junk ++ rest)) =
      ProtoResult.fail [] rest := by
  simp only [proto_read_request]
  rw [if_pos hgt, if_neg hne, if_pos (by simp [hj]), ← hj, List.drop_left]

/-- Witness for the amended C6 at `len = 300`. -/
theorem oversized_request_drained_witness :
    proto_read_request (0x02 :: 44 :: 1 :: (List.replicate 301 7 ++ [9, 8])) =
      ProtoResult.fail [] [9, 8] :=
  oversized_request_drained 0x02 44 1 (List.replicate 301 7) [9, 8]
    (by decide) (by decide) (by rw [List.length_replicate]; decide)

theorem config_word_cons_cons (a b : Nat) (rest : List Nat) (k : Nat) :
    config_word (a :: b :: rest) (k + 1) = config_word rest k := by
  unfold config_word
  rw [show 2 * (k + 1) = 2 * k + 1 + 1 from by ring]
  simp only [List.getD_cons_succ, List.length_cons]
  exact if_congr (by omega) rfl rfl

/-- C5: `icsp_program_config` issues exactly `⌈n/2⌉` explicit word writes
for an `n`-byte block — each one a load-PC of `addr + 2k`, a load-data of
the little-endian byte pair (the trailing odd byte padded with 0xFF in
the high byte), a begin-programming opcode and an 11 ms wait — skipping no
word, whatever the byte values (in particular all-0xFF blocks). -/
theorem program_config_writes_every_word (addr : Nat) (data : List Nat) :
    icsp_program_config addr data =
      (List.range ((data.length + 1) / 2)).flatMap
        (fun k => config_word_write (addr + 2 * k) (config_word data k)) := by
  induction addr, data using icsp_program_config.induct with
  | case1 addr a b rest ih =>
    simp only [icsp_program_config, ih, List.length_cons]
    rw [show (rest.length + 1 + 1 + 1) / 2 = (rest.length + 1) / 2 + 1 from by omega]
    rw [List.range_succ_eq_map, List.flatMap_cons]
    have hfun : (fun k => config_word_write (addr + 2 * Nat.succ k)
        (config_word (a :: b :: rest) (Nat.succ k))) =
        (fun k => config_word_write (addr + 2 + 2 * k) (config_word rest k)) := by
      funext k
      rw [show addr + 2 * Nat.succ k = addr + 2 + 2 * k from by omega,
        show Nat.succ k = k + 1 from rfl, config_word_cons_cons]
    have hmap : (List.map Nat.succ (List.range ((rest.length + 1) / 2))).flatMap
        (fun k => config_word_write (addr + 2 * k) (config_word (a :: b :: rest) k)) =
        (List.range ((rest.length + 1) / 2)).flatMap
          (fun k => config_word_write (addr + 2 + 2 * k) (config_word rest k)) := by
      rw [List.flatMap_map]
      exact congrArg _ hfun
    rw [hmap]
    have h0 : config_word_write (addr + 2 * 0) (config_word (a :: b :: rest) 0) =
        config_word_write addr (a ||| (b <<< 8)) := by
      have : config_word (a :: b :: rest) 0 = a ||| (b <<< 8) := by
        unfold config_word
        rw [if_pos (by simp only [List.length_cons]; omega)]
        rfl
      rw [this]; norm_num
    rw [h0]
    simp [config_word_write, List.append_assoc]
  | case2 addr a =>
    simp only [icsp_program_config, List.length_cons, List.length_nil]
    have : config_word [a] 0 = a ||| 0xFF00 := by
      unfold config_word
      rw [if_neg (by simp)]
      rfl
    rw [show List.range 1 = [0] from by decide]
    simp [config_word_write, this]
  | case3 addr =>
    simp [icsp_program_config]

theorem icsp_pack_unpack (v : Nat) (hv : v < 65536) :
    icsp_read_word ((v >>> 15) % 256) ((v >>> 7) % 256) ((v <<< 1) % 256) = v := by
  unfold icsp_read_word
  apply Nat.eq_of_testBit_eq
  intro i
  rcases Nat.lt_or_ge i 16 with hi | hi
  · simp only [show (65536 : Nat) = 2 ^ 16 from rfl, show (256 : Nat) = 2 ^ 8 from rfl,
      Nat.testBit_mod_two_pow, Nat.testBit_or, Nat.testBit_shiftLeft, Nat.testBit_shiftRight]
    interval_cases i <;> simp
  · have h1 : v < 2 ^ i := lt_of_lt_of_le hv (Nat.pow_le_pow_right (show 0 < 2 by norm_num) hi)
    rw [Nat.testBit_lt_two_pow h1]
    rw [show (65536 : Nat) = 2 ^ 16 from rfl, Nat.testBit_mod_two_pow]
    simp [show ¬ i < 16 from by omega]

/-- C2: for every 16-bit value `v`, the 3 payload bytes emitted by the
write-side 24-bit packing of `icsp_send_command`, fed back through the
read-side reconstruction of `icsp_cmd_read_data` (truncated to 16 bits),
recover `v` exactly. -/
theorem send_read_word_inverse (v : Nat) (hv : v < 65536) (cmd : Nat) :
    icsp_send_command cmd (v : Int) =
      [Ev.spiWrite [cmd, (v >>> 15) % 256, (v >>> 7) % 256, (v <<< 1) % 256]] ∧
    icsp_read_word ((v >>> 15) % 256) ((v >>> 7) % 256) ((v <<< 1) % 256) = v := by
  constructor
  · simp [icsp_send_command, Int.toNat_natCast]
  · exact icsp_pack_unpack v hv

/-- Witness for C2 at `v = 0x1234`. -/
theorem send_read_word_inverse_witness :
    icsp_send_command 0x00 ((0x1234 : Nat) : Int) =
      [Ev.spiWrite [0x00, (0x1234 >>> 15) % 256, (0x1234 >>> 7) % 256, (0x1234 <<< 1) % 256]] ∧
    icsp_read_word ((0x1234 >>> 15) % 256) ((0x1234 >>> 7) % 256) ((0x1234 <<< 1) % 256) =
      0x1234 :=
  send_read_word_inverse 0x1234 (by norm_num) 0x00

theorem xor_mod256 (x y : Nat) : (x ^^^ y) % 256 = (x % 256) ^^^ (y % 256) := by
  apply Nat.eq_of_testBit_eq
  intro i
  rw [show (256 : Nat) = 2 ^ 8 from rfl]
  simp only [Nat.testBit_mod_two_pow, Nat.testBit_xor, Bool.and_xor_distrib_left]

theorem xor_shiftLeft (x y n : Nat) : (x ^^^ y) <<< n = (x <<< n) ^^^ (y <<< n) := by
  apply Nat.eq_of_testBit_eq
  intro i
  simp [Nat.testBit_shiftLeft, Nat.testBit_xor, Bool.and_xor_distrib_left]

theorem crc8_round_xor (f s : Nat) :
    crc8_round (f ^^^ s) = crc8_feed_bit f ((s >>> 7) % 2) ^^^ ((s <<< 1) % 256) := by
  unfold crc8_round crc8_feed_bit
  rw [show (128 : Nat) = 2 ^ 7 from rfl, Nat.and_two_pow,
    Nat.shiftRight_eq_div_pow f 7, Nat.shiftRight_eq_div_pow s 7,
    ← Nat.toNat_testBit f 7, ← Nat.toNat_testBit s 7, Nat.testBit_xor f s 7]
  by_cases h7f : f.testBit 7 <;> by_cases h7s : s.testBit 7 <;>
    simp [h7f, h7s, xor_mod256, xor_shiftLeft] <;>
    rw [Nat.xor_assoc, Nat.xor_assoc, Nat.xor_comm 7]

theorem crc8_feed_bit_lt (c bit : Nat) : crc8_feed_bit c bit < 256 := by
  unfold crc8_feed_bit
  split
  · exact Nat.xor_lt_two_pow (n := 8) (Nat.mod_lt _ (by norm_num)) (by norm_num)
  · exact Nat.mod_lt _ (by norm_num)

theorem crc8_feed_list_lt (l : List Nat) : ∀ c, c < 256 → crc8_feed_list c l < 256 := by
  induction l with
  | nil => exact fun c hc => hc
  | cons bit rest ih => exact fun c _ => ih _ (crc8_feed_bit_lt c bit)

theorem crc8_rounds_feed (j : Nat) : ∀ f s, s < 256 →
    crc8_rounds j (f ^^^ s) =
      crc8_feed_list f (crc8_top_bits j s) ^^^ ((s <<< j) % 256) := by
  induction j with
  | zero =>
    intro f s hs
    simp [crc8_rounds, crc8_top_bits, crc8_feed_list, Nat.mod_eq_of_lt hs]
  | succ j ih =>
    intro f s _
    show crc8_rounds j (crc8_round (f ^^^ s)) = _
    rw [crc8_round_xor,
      ih (crc8_feed_bit f ((s >>> 7) % 2)) ((s <<< 1) % 256) (Nat.mod_lt _ (by norm_num))]
    congr 1
    rw [Nat.shiftLeft_eq ((s <<< 1) % 256) j, Nat.shiftLeft_eq s (j + 1),
      Nat.shiftLeft_eq s 1, Nat.mod_mul_mod]
    congr 1
    rw [pow_succ]
    ring

theorem crc8_top_bits_eq (b : Nat) :
    crc8_top_bits 8 b = (List.range 8).map (fun j => (b >>> (7 - j)) % 2) := by
  rw [show List.range 8 = [0, 1, 2, 3, 4, 5, 6, 7] from by decide]
  simp only [List.map_cons, List.map_nil]
  simp only [crc8_top_bits]
  simp only [List.cons.injEq, and_true]
  simp only [Nat.shiftLeft_eq, Nat.shiftRight_eq_div_pow]
  norm_num
  omega

theorem crc8_rounds_eq_feed_byte (c b : Nat) (hb : b < 256) :
    crc8_rounds 8 (c ^^^ b) = crc8_feed_byte c b := by
  rw [crc8_rounds_feed 8 c b hb,
    show (b <<< 8) % 256 = 0 from by rw [Nat.shiftLeft_eq]; exact Nat.mul_mod_left b 256,
    Nat.xor_zero]
  unfold crc8_feed_byte
  rw [crc8_top_bits_eq]

theorem proto_crc8_eq_spec (l : List Nat) : proto_crc8 l = crc8_msb_spec l := by
  unfold proto_crc8 crc8_msb_spec
  suffices h : ∀ c, c < 256 →
      l.foldl (fun crc b => crc8_rounds 8 (crc ^^^ b % 256)) c =
        l.foldl (fun c b => crc8_feed_byte c (b % 256)) c from h 0 (by norm_num)
  induction l with
  | nil => exact fun c hc => rfl
  | cons b t ih =>
    intro c hc
    simp only [List.foldl_cons]
    rw [crc8_rounds_eq_feed_byte c (b % 256) (Nat.mod_lt _ (by norm_num))]
    exact ih _ (crc8_feed_list_lt _ _ hc)

/-- C7: `proto_crc8` implements CRC-8 with polynomial 0x07, initial value
0x00, MSB-first, no reflection, over exactly the bytes given: it equals
the bit-serial reference on every input, maps the empty sequence to 0x00,
is deterministic, and maps `[0x09, 0x00, 0x00]` to the value 0x3A that
the reference computes from that polynomial and seed. -/
theorem crc8_implements_poly07 :
    proto_crc8 [] = 0x00 ∧
    (∀ l1 l2 : List Nat, l1 = l2 → proto_crc8 l1 = proto_crc8 l2) ∧
    (∀ l : List Nat, proto_crc8 l = crc8_msb_spec l) ∧
    proto_crc8 [0x09, 0x00, 0x00] = 0x3A ∧ crc8_msb_spec [0x09, 0x00, 0x00] = 0x3A :=
  ⟨rfl, fun _ _ h => congrArg _ h, proto_crc8_eq_spec, by decide, by decide⟩

/-- Witness for C7 at a concrete byte list. -/
theorem crc8_implements_poly07_witness :
    proto_crc8 [0x12, 0x34] = proto_crc8 [0x12, 0x34] ∧
    proto_crc8 [0x12, 0x34] = crc8_msb_spec [0x12, 0x34] :=
  ⟨crc8_implements_poly07.2.1 [0x12, 0x34] [0x12, 0x34] rfl,
   crc8_implements_poly07.2.2.1 [0x12, 0x34]⟩

theorem count_spiRead_enter (lvp : LvpState) :
    ((icsp_enter_lvp lvp).1).count Ev.spiRead = 0 := by
  cases lvp <;> rfl

theorem count_spiRead_loadpc (addr : Nat) :
    (icsp_cmd_loadpc addr).count Ev.spiRead = 0 := by
  unfold icsp_cmd_loadpc icsp_send_command
  rw [if_pos (Int.natCast_nonneg addr)]
  rfl

theorem count_flatMap_const {α : Type} [BEq α] (n : Nat) (l : List α) (a : α) :
    ((List.range n).flatMap (fun _ => l)).count a = n * l.count a := by
  induction n with
  | zero => simp
  | succ n ih =>
    rw [List.range_succ, List.flatMap_append, List.count_append, ih]
    simp [Nat.succ_mul]

theorem count_spiRead_read_trace :
    (icsp_cmd_read_data_trace true).count Ev.spiRead = 1 := rfl

theorem flatMap_pair_eq_map_range {α : Type} (f g : Nat → α) (m : Nat) :
    (List.range m).flatMap (fun i => [f i, g i]) =
      (List.range (2 * m)).map (fun k => if k % 2 = 0 then f (k / 2) else g (k / 2)) := by
  induction m with
  | zero => rfl
  | succ m ih =>
    rw [List.range_succ, List.flatMap_append, ih,
      show 2 * (m + 1) = 2 * m + 1 + 1 from by ring,
      List.range_succ, List.range_succ, List.map_append, List.map_append]
    simp only [List.flatMap_cons, List.flatMap_nil, List.map_cons, List.map_nil,
      List.append_nil]
    rw [List.append_assoc]
    congr 1
    have h1 : 2 * m % 2 = 0 := by omega
    have h2 : 2 * m / 2 = m := by omega
    have h3 : ¬(2 * m + 1) % 2 = 0 := by omega
    have h4 : (2 * m + 1) / 2 = m := by omega
    simp [h1, h2, h3, h4]

theorem read_words_buf_eq (env : Nat → Nat) (rl : Nat) :
    read_words_buf env rl =
      (List.range rl).map (fun k =>
        if k % 2 = 0 then readEnvWord env (k / 2) % 256
        else (readEnvWord env (k / 2) >>> 8) % 256) := by
  obtain ⟨m, hm | hm⟩ := Nat.even_or_odd' rl <;> subst hm
  · unfold read_words_buf
    rw [show (2 * m + 1) / 2 = m from by omega]
    have hchunks : (List.range m).flatMap (fun i => readEnvWord env i % 256 ::
          (if 2 * i + 1 < 2 * m then [(readEnvWord env i >>> 8) % 256] else [])) =
        (List.range m).flatMap
          (fun i => [readEnvWord env i % 256, (readEnvWord env i >>> 8) % 256]) := by
      rw [List.flatMap_def, List.flatMap_def]
      congr 1
      apply List.map_congr_left
      intro i hi
      rw [List.mem_range] at hi
      rw [if_pos (by omega)]
    rw [hchunks, flatMap_pair_eq_map_range]
  · unfold read_words_buf
    rw [show (2 * m + 1 + 1) / 2 = m + 1 from by omega]
    rw [List.range_succ, List.flatMap_append]
    have hchunks : (List.range m).flatMap (fun i => readEnvWord env i % 256 ::
          (if 2 * i + 1 < 2 * m + 1 then [(readEnvWord env i >>> 8) % 256] else [])) =
        (List.range m).flatMap
          (fun i => [readEnvWord env i % 256, (readEnvWord env i >>> 8) % 256]) := by
      rw [List.flatMap_def, List.flatMap_def]
      congr 1
      apply List.map_congr_left
      intro i hi
      rw [List.mem_range] at hi
      rw [if_pos (by omega)]
    rw [hchunks, flatMap_pair_eq_map_range,
      show 2 * m + 1 = 2 * m + 1 from rfl, List.range_succ, List.map_append]
    congr 1
    have h1 : 2 * m % 2 = 0 := by omega
    have h2 : 2 * m / 2 = m := by omega
    have h3 : ¬(2 * m + 1 < 2 * m + 1) := by omega
    simp [h1, h2, h3]

set_option maxHeartbeats 1000000 in
/-- C8: for every valid READ request (payload at least 6 bytes, requested
length `read_len ≤ 256`) the handler responds with status OK and exactly
`read_len` payload bytes; at addresses ≥ 0x310000 it performs `read_len`
word reads and returns each word's low byte, and below that it performs
`⌈read_len/2⌉` word reads unpacked little-endian, the final byte of an
odd-length request coming from only the low byte of the last word read. -/
theorem read_handler_response (env : Nat → Nat) (req : List Nat) (lvp : LvpState)
    (h6 : 6 ≤ req.length) (hrl : proto_get_u16 (req.drop 4) ≤ 256) :
    ∃ buf : List Nat,
      (handle_read env req lvp).2.1 = proto_send_response 0x00 buf ∧
      buf.length = proto_get_u16 (req.drop 4) ∧
      (handle_read env req lvp).1.count Ev.spiRead =
        (if 0x310000 ≤ proto_get_u32 req then proto_get_u16 (req.drop 4)
         else (proto_get_u16 (req.drop 4) + 1) / 2) ∧
      (∀ k, k < proto_get_u16 (req.drop 4) →
        buf.getD k 0 =
          if 0x310000 ≤ proto_get_u32 req then readEnvWord env k % 256
          else if k % 2 = 0 then readEnvWord env (k / 2) % 256
          else (readEnvWord env (k / 2) >>> 8) % 256) := by
  simp only [handle_read]
  rw [if_neg (by omega), if_neg (by omega)]
  by_cases ha : 0x310000 ≤ proto_get_u32 req
  · rw [if_pos ha]
    refine ⟨(List.range (proto_get_u16 (req.drop 4))).map (fun k => readEnvWord env k % 256),
      ?_, ?_, ?_, ?_⟩
    · simp [icsp_read_data_8bit]
    · simp
    · rw [if_pos ha]
      simp [icsp_read_data_8bit, List.count_append, count_spiRead_enter,
        count_spiRead_loadpc, count_flatMap_const, count_spiRead_read_trace]
    · intro k hk
      rw [if_pos ha]
      rw [List.getD_eq_getElem _ _ (by simpa using hk), List.getElem_map, List.getElem_range]
  · rw [if_neg ha]
    refine ⟨read_words_buf env (proto_get_u16 (req.drop 4)), ?_, ?_, ?_, ?_⟩
    · simp
    · rw [read_words_buf_eq]; simp
    · rw [if_neg ha]
      simp [List.count_append, count_spiRead_enter, count_spiRead_loadpc,
        count_flatMap_const, count_spiRead_read_trace]
    · intro k hk
      rw [if_neg ha]
      rw [read_words_buf_eq]
      rw [List.getD_eq_getElem _ _ (by simpa using hk), List.getElem_map, List.getElem_range]

/-- Witness for C8 at a concrete request and environment. -/
theorem read_handler_response_witness :
    ∃ buf : List Nat,
      (handle_read (fun k => k + 1) [0, 0, 0, 0, 3, 0] false).2.1 =
        proto_send_response 0x00 buf ∧
      buf.length = proto_get_u16 ([0, 0, 0, 0, 3, 0].drop 4) ∧
      (handle_read (fun k => k + 1) [0, 0, 0, 0, 3, 0] false).1.count Ev.spiRead =
        (if 0x310000 ≤ proto_get_u32 [0, 0, 0, 0, 3, 0] then
          proto_get_u16 ([0, 0, 0, 0, 3, 0].drop 4)
         else (proto_get_u16 ([0, 0, 0, 0, 3, 0].drop 4) + 1) / 2) ∧
      (∀ k, k < proto_get_u16 ([0, 0, 0, 0, 3, 0].drop 4) →
        buf.getD k 0 =
          if 0x310000 ≤ proto_get_u32 [0, 0, 0, 0, 3, 0] then
            readEnvWord (fun k => k + 1) k % 256
          else if k % 2 = 0 then readEnvWord (fun k => k + 1) (k / 2) % 256
          else (readEnvWord (fun k => k + 1) (k / 2) >>> 8) % 256) :=
  read_handler_response (fun k => k + 1) [0, 0, 0, 0, 3, 0] false (by decide) (by decide)

end Picokit
